import Mathlib

/-!
# Verification of the lead-CRM core (lead lifecycle, claims, automation, tasks)

Shallow embedding of the repository's API-route logic over an explicit
store state (`DB`).  Times are modelled as `Int` milliseconds since epoch
(matching JavaScript `Date.now()`); nullable columns are `Option` fields;
each route handler becomes a pure function from the incoming request data
and the current store to a result together with the updated store.

StatusHistory rows are appended in creation order, so "most recent row"
(the code orders by `createdAt` descending) is the last appended row.
-/

namespace Crm

/-- The closed user-role enumeration (`UserRole` in `lib/auth`). -/
inductive Role
  | admin
  | lead_gen
  | outreach
deriving DecidableEq, Repr

/-- The closed lead-status enumeration (`updateLeadSchema.status` in
`lib/validations.ts`). -/
inductive Status
  | new
  | requested
  | texted
  | replied
  | meeting_booked
  | first_followup
  | second_followup
  | junk
  | closed
  | commented
deriving DecidableEq, Repr

/-- String form of a status, as stored in the database and compared against
client-supplied query parameters. -/
def statusToString : Status → String
  | .new => "new"
  | .requested => "requested"
  | .texted => "texted"
  | .replied => "replied"
  | .meeting_booked => "meeting_booked"
  | .first_followup => "first_followup"
  | .second_followup => "second_followup"
  | .junk => "junk"
  | .closed => "closed"
  | .commented => "commented"

/-- Task states (`status` column of Task: undone | done | backlog). -/
inductive TaskStatus
  | undone
  | done
  | backlog
deriving DecidableEq, Repr

/-- A user row (id, role, username). -/
structure User where
  id : Nat
  username : String
  role : Role
deriving DecidableEq, Repr

/-- A lead row: the claim-relevant columns of the Lead table.  Nullable
timestamp columns are `Option Int` (milliseconds). -/
structure Lead where
  id : Nat
  name : String
  email : Option String := none
  company : Option String := none
  system : Option String := none
  status : Status := .new
  assignedToId : Option Nat := none
  createdAt : Int := 0
  textedAt : Option Int := none
  firstFollowupAt : Option Int := none
  secondFollowupAt : Option Int := none
  repliedAt : Option Int := none
  meetingBookedAt : Option Int := none
  commentedAt : Option Int := none
deriving DecidableEq, Repr

/-- A StatusHistory row (append-only audit entry). -/
structure HistoryRow where
  leadId : Nat
  userId : Nat
  oldStatus : Status
  newStatus : Status
  reason : Option String
  createdAt : Int
deriving DecidableEq, Repr

/-- A task row. -/
structure Task where
  id : Nat
  title : String
  description : Option String := none
  assignedToId : Nat
  createdById : Nat
  createdAt : Int
  dueAt : Int
  status : TaskStatus := .undone
deriving DecidableEq, Repr

/-- The persistent store: users, leads, status history (in creation order)
and tasks. -/
structure DB where
  users : List User
  leads : List Lead
  history : List HistoryRow
  tasks : List Task
deriving DecidableEq, Repr

/-- An authenticated session (`getSession` result): user id plus role. -/
structure Session where
  id : Nat
  role : Role
deriving DecidableEq, Repr

/-- `prisma.lead.findUnique({ where: { id } })`: first row with the id. -/
def findLead (ls : List Lead) (i : Nat) : Option Lead :=
  ls.find? (fun l => l.id == i)

/-- `prisma.lead.update({ where: { id }, data })`: rewrite the row with the
given id (id is the unique primary key). -/
def updateLeadById (ls : List Lead) (i : Nat) (f : Lead → Lead) : List Lead :=
  ls.map (fun l => if l.id == i then f l else l)

/-- All history rows of one lead, in creation order. -/
def rowsFor (i : Nat) (h : List HistoryRow) : List HistoryRow :=
  h.filter (fun r => r.leadId == i)

/-- `prisma.user.findFirst({ where: { role: 'admin' } })`. -/
def findFirstAdmin (us : List User) : Option User :=
  us.find? (fun u => u.role == Role.admin)

/-! ## Task backlog sweep (`lib/tasks-backlog.ts`, also inlined in
`GET /api/tasks`):
`updateMany({ where: { status: 'undone', dueAt: { lt: now } },
data: { status: 'backlog' } })`. -/

/-- Predicate of the backlog `updateMany` where-clause. -/
def overdueUndone (now : Int) (t : Task) : Bool :=
  t.status == TaskStatus.undone && t.dueAt < now

/-- `syncTaskBacklog`: bulk-move overdue undone tasks to backlog; returns the
updated table and the affected-row count. -/
def syncTaskBacklog (now : Int) (tasks : List Task) : List Task × Nat :=
  (tasks.map (fun t => if overdueUndone now t then { t with status := .backlog } else t),
   (tasks.filter (overdueUndone now)).length)

/-! ## Task creation (`POST /api/tasks`).
Timestamps are modelled as already-parsed instants: `none` stands for
"parameter absent or unparseable" (in the route an unparseable string
leaves the default in place, exactly like an absent one). -/

/-- One day in milliseconds (`now.plus({ hours: 24 })`). -/
def dayMs : Int := 24 * 60 * 60 * 1000

/-- Error classes surfaced by task creation. -/
inductive TaskError
  | invalidInput
deriving DecidableEq, Repr

/-- `POST /api/tasks` body logic after validation: `createdAt` defaults to
the request time `now`, `dueAt` defaults to `now + 24h`; if either timestamp
was supplied, reject when the effective `dueAt` precedes the effective
`createdAt`. -/
def createTaskOp (now : Int) (createdAtIn dueAtIn : Option Int)
    (title : String) (assignedToId createdById : Nat) :
    Except TaskError Task :=
  let createdAt := createdAtIn.getD now
  let dueAt := dueAtIn.getD (now + dayMs)
  if createdAtIn.isSome || dueAtIn.isSome then
    if dueAt < createdAt then
      .error .invalidInput
    else
      .ok { id := 0, title := title, assignedToId := assignedToId,
            createdById := createdById, createdAt := createdAt,
            dueAt := dueAt, status := .undone }
  else
    .ok { id := 0, title := title, assignedToId := assignedToId,
          createdById := createdById, createdAt := createdAt,
          dueAt := dueAt, status := .undone }

/-! ## Automation sweep (`lib/automation`, `runAutomationRules`). -/

/-- Result record of `runAutomationRules` (`error` is the optional error
field of the returned object). -/
structure AutomationResult where
  transitioned : Nat
  error : Option String := none
deriving DecidableEq, Repr

/-- The sweep's candidate where-clause: `status = 'second_followup'` and
`secondFollowupAt` non-null and `≤ now − 4 days`. -/
def staleSecondFollowup (now : Int) (l : Lead) : Bool :=
  l.status == Status.second_followup &&
    (match l.secondFollowupAt with
     | none => false
     | some t => t ≤ now - 4 * dayMs)

/-- The audit row the sweep writes for one transitioned lead. -/
def junkRow (adminId : Nat) (now : Int) (l : Lead) : HistoryRow :=
  { leadId := l.id, userId := adminId,
    oldStatus := .second_followup, newStatus := .junk,
    reason := some "Automated: Second Follow-up > 4 days", createdAt := now }

/-- The per-row mutation of the sweep: set the status to junk. -/
def junkify (l : Lead) : Lead :=
  { l with status := .junk }

/-- The effect of one complete sweep on a single lead: junked exactly when
it matches the candidate where-clause. -/
def junkIf (now : Int) (l : Lead) : Lead :=
  if staleSecondFollowup now l then junkify l else l

/-- One loop iteration of the sweep: create the history row, then set the
lead's status to junk. -/
def sweepStep (adminId : Nat) (now : Int) (db : DB) (l : Lead) : DB :=
  { db with
    history := db.history ++ [junkRow adminId now l],
    leads := updateLeadById db.leads l.id junkify }

/-- `runAutomationRules`: look up an admin user (bailing out with an error
result when none exists), select the stale second-followup leads, and
transition each one to junk with one history row. -/
def runAutomationRules (db : DB) (now : Int) : DB × AutomationResult :=
  match findFirstAdmin db.users with
  | none => (db, { transitioned := 0, error := some "No admin user found" })
  | some adminUser =>
    let leadsToTransition := db.leads.filter (staleSecondFollowup now)
    let db' := leadsToTransition.foldl (sweepStep adminUser.id now) db
    (db', { transitioned := leadsToTransition.length })

/-! ## Lead creation (`POST /api/leads`).
The route inserts the validated fields; no StatusHistory row is written.
The lead's `status` column is not part of `createLeadSchema` and is filled
by the schema default.  Modelled from the spec: the status default is
`'new'` (the Prisma schema file is not among the sources; the spec states
that a freshly created lead has status `new`). -/

/-- Fields accepted by `createLeadSchema` (claim-relevant subset). -/
structure CreateLeadData where
  name : String
  email : Option String := none
  company : Option String := none
  assignedToId : Option Nat := none
deriving DecidableEq, Repr

/-- `POST /api/leads` after authentication and validation: strip the
assignment field for non-admin callers, then insert a lead with the default
status `new` and empty timestamps.  No history row is created. -/
def createLead (db : DB) (session : Session) (newId : Nat)
    (data : CreateLeadData) (now : Int) : DB × Lead :=
  let data :=
    if session.role ≠ Role.admin then { data with assignedToId := none } else data
  let lead : Lead :=
    { id := newId, name := data.name, email := data.email,
      company := data.company, assignedToId := data.assignedToId,
      status := .new, createdAt := now }
  ({ db with leads := db.leads ++ [lead] }, lead)

/-! ## Lead update (`PUT /api/leads/[id]`, second handler in the
users-route source file). -/

/-- The validated update payload (`updateLeadSchema`): each field is
`none` when absent from the request body.  `assignedToId` distinguishes
"absent" (`none`) from "present, possibly null" (`some v`). -/
structure UpdateLeadData where
  name : Option String := none
  status : Option Status := none
  assignedToId : Option (Option Nat) := none
  reason : Option String := none
deriving DecidableEq, Repr

/-- Result classes of the update route. -/
inductive UpdateResult
  | ok (lead : Lead)
  | notFound
  | forbidden
  | storeFailure
deriving DecidableEq, Repr

/-- Apply the route's `updateData` to the stored row: the payload fields,
plus the first-transition timestamp stamps computed in the status-change
branch. -/
def applyUpdateData (data : UpdateLeadData) (stampStatus : Option Status)
    (now : Int) (l : Lead) : Lead :=
  let l := { l with
    name := data.name.getD l.name,
    status := (data.status).getD l.status,
    assignedToId := (data.assignedToId).getD l.assignedToId }
  match stampStatus with
  | some .texted => { l with textedAt := some now }
  | some .first_followup => { l with firstFollowupAt := some now }
  | some .second_followup => { l with secondFollowupAt := some now }
  | some .replied => { l with repliedAt := some now }
  | _ => l

/-- Which timestamp stamp the status-change branch computes: the target
status when it is one of the four stamped statuses and the corresponding
column is still null, otherwise nothing. -/
def stampFor (l : Lead) (st : Status) : Option Status :=
  if st == Status.texted && l.textedAt == none then some .texted
  else if st == Status.first_followup && l.firstFollowupAt == none then some .first_followup
  else if st == Status.second_followup && l.secondFollowupAt == none then some .second_followup
  else if st == Status.replied && l.repliedAt == none then some .replied
  else none

/-- "Only admin can change assignment": the route deletes `assignedToId`
from the payload for non-admin callers. -/
def stripAssign (role : Role) (data : UpdateLeadData) : UpdateLeadData :=
  if data.assignedToId ≠ none && role ≠ Role.admin then
    { data with assignedToId := none }
  else data

/-- The route's status-change test:
`validatedData.status && validatedData.status !== existingLead.status`. -/
def statusChangeOf (data : UpdateLeadData) (cur : Status) : Bool :=
  match data.status with
  | some st => st != cur
  | none => false

/-- The history row written by the status-change branch of the update
route. -/
def changeRow (leadId userId : Nat) (existingLead : Lead)
    (data : UpdateLeadData) (now : Int) : HistoryRow :=
  { leadId := leadId, userId := userId, oldStatus := existingLead.status,
    newStatus := (data.status).getD existingLead.status,
    reason := data.reason, createdAt := now }

/-- `PUT /api/leads/[id]`: existence and role checks, assignment-field
stripping for non-admins, then — when the payload carries a status different
from the stored one — one StatusHistory row followed by the lead update with
the first-transition stamps.  `updateFails` injects a transient store
failure at the final `prisma.lead.update` call: the route's catch block
returns an error without undoing the already-written history row. -/
def leadUpdateF (updateFails : Bool) (db : DB) (session : Session)
    (leadId : Nat) (data : UpdateLeadData) (now : Int) : UpdateResult × DB :=
  match findLead db.leads leadId with
  | none => (.notFound, db)
  | some existingLead =>
    if session.role == Role.lead_gen && existingLead.assignedToId != none then
      (.forbidden, db)
    else if session.role == Role.outreach &&
        existingLead.assignedToId != some session.id then
      (.forbidden, db)
    else
      let data := stripAssign session.role data
      let statusChange := statusChangeOf data existingLead.status
      let db1 :=
        if statusChange then
          { db with history := db.history ++
              [changeRow leadId session.id existingLead data now] }
        else db
      let stampStatus :=
        if statusChange then stampFor existingLead ((data.status).getD existingLead.status)
        else none
      if updateFails then (.storeFailure, db1)
      else
        let newLead := applyUpdateData data stampStatus now existingLead
        (.ok newLead,
         { db1 with leads :=
            updateLeadById db1.leads leadId (fun l => applyUpdateData data stampStatus now l) })

/-- The update route in a failure-free execution. -/
def leadUpdate (db : DB) (session : Session) (leadId : Nat)
    (data : UpdateLeadData) (now : Int) : UpdateResult × DB :=
  leadUpdateF false db session leadId data now

/-! ## Claim (`POST /api/leads/[id]/claim`).

The handler is three store round-trips: read the lead (with the
application-level assignment check), create the claim history row, then an
unconditional `update` of `assignedToId`.  To reason about racing requests
each round-trip is one atomic step of a small state machine. -/

/-- Outcomes of a claim request. -/
inductive ClaimOutcome
  | ok
  | notFound
  | alreadyAssigned
  | forbidden
deriving DecidableEq, Repr

/-- Control state of one in-flight claim request.  `checked` and `histDone`
carry the snapshot of the lead taken by the initial read. -/
inductive ClaimPhase
  | start
  | checked (snapshot : Lead)
  | histDone (snapshot : Lead)
  | done (outcome : ClaimOutcome)
deriving DecidableEq, Repr

/-- The claim audit row: `oldStatus = newStatus` (assignment change only). -/
def claimRow (leadId userId : Nat) (st : Status) (now : Int) : HistoryRow :=
  { leadId := leadId, userId := userId, oldStatus := st, newStatus := st,
    reason := some "Lead claimed", createdAt := now }

/-- The store after a successful claim: the claim row appended and the
assignment overwritten. -/
def afterClaim (db : DB) (leadId uid : Nat) (st : Status) (now : Int) : DB :=
  { db with
    history := db.history ++ [claimRow leadId uid st now],
    leads := updateLeadById db.leads leadId
      (fun x => { x with assignedToId := some uid }) }

/-- One atomic store round-trip of the claim handler.  The first step
performs the role check, the read, and the check against the snapshot
(`lead.assignedToId && lead.assignedToId !== session.id`); the second
creates the history row; the third blindly overwrites `assignedToId`
conditioned only on the lead id. -/
def claimStep (userId : Nat) (role : Role) (leadId : Nat) (now : Int)
    (db : DB) : ClaimPhase → DB × ClaimPhase
  | .start =>
    if role ≠ Role.outreach && role ≠ Role.admin then
      (db, .done .forbidden)
    else
      match findLead db.leads leadId with
      | none => (db, .done .notFound)
      | some lead =>
        if lead.assignedToId != none && lead.assignedToId != some userId then
          (db, .done .alreadyAssigned)
        else (db, .checked lead)
  | .checked snapshot =>
    ({ db with history := db.history ++ [claimRow leadId userId snapshot.status now] },
     .histDone snapshot)
  | .histDone _ =>
    ({ db with leads :=
        updateLeadById db.leads leadId (fun l => { l with assignedToId := some userId }) },
     .done .ok)
  | .done r => (db, .done r)

/-- A single claim request run to completion without interleaving. -/
def claimRun (userId : Nat) (role : Role) (leadId : Nat) (now : Int)
    (db : DB) : DB × ClaimPhase :=
  let (db1, p1) := claimStep userId role leadId now db .start
  let (db2, p2) := claimStep userId role leadId now db1 p1
  claimStep userId role leadId now db2 p2

/-- An in-flight claim request: its session data and control state. -/
structure ClaimThread where
  userId : Nat
  role : Role
  phase : ClaimPhase
deriving DecidableEq, Repr

/-- Run two concurrent claim requests on the same lead under a schedule:
`true` steps the first thread, `false` the second. -/
def runClaims (leadId : Nat) (now : Int) :
    DB → ClaimThread → ClaimThread → List Bool → DB × ClaimThread × ClaimThread
  | db, t1, t2, [] => (db, t1, t2)
  | db, t1, t2, true :: rest =>
    let (db', p') := claimStep t1.userId t1.role leadId now db t1.phase
    runClaims leadId now db' { t1 with phase := p' } t2 rest
  | db, t1, t2, false :: rest =>
    let (db', p') := claimStep t2.userId t2.role leadId now db t2.phase
    runClaims leadId now db' t1 { t2 with phase := p' } rest

/-! ## Unclaim (`POST /api/leads/[id]/unclaim`). -/

/-- Result classes of the unclaim route. -/
inductive UnclaimResult
  | ok
  | notFound
  | forbidden
  | alreadyUnclaimed
deriving DecidableEq, Repr

/-- `POST /api/leads/[id]/unclaim`: role check, read, ownership check for
outreach, already-unclaimed check, then the history row followed by setting
`assignedToId` to null. -/
def unclaim (db : DB) (session : Session) (leadId : Nat) (now : Int) :
    UnclaimResult × DB :=
  if session.role ≠ Role.outreach && session.role ≠ Role.admin then
    (.forbidden, db)
  else
    match findLead db.leads leadId with
    | none => (.notFound, db)
    | some lead =>
      if session.role == Role.outreach && lead.assignedToId != some session.id then
        (.forbidden, db)
      else if lead.assignedToId == none then
        (.alreadyUnclaimed, db)
      else
        (.ok,
         { db with
           history := db.history ++
             [{ leadId := leadId, userId := session.id,
                oldStatus := lead.status, newStatus := lead.status,
                reason := some "Lead unclaimed", createdAt := now }],
           leads := updateLeadById db.leads leadId
             (fun l => { l with assignedToId := none }) })

/-! ## Lead listing (`GET /api/leads`) and date-filter listing
(`GET /api/leads/date-filter`).

Each route builds a Prisma where-clause; here the clause is embedded
directly as its meaning, a `Lead → Bool` predicate, following the same
branch structure.  Absent or empty query parameters are modelled as `none`
(both are falsy in the route code). -/

/-- Case-insensitive substring test (`contains` with `mode: 'insensitive'`). -/
def containsCI (hay pat : String) : Bool :=
  pat == "" || ((hay.toLower).splitOn (pat.toLower)).length > 1

/-- The free-text search condition over name/email/company (a null column
never matches `contains`). -/
def searchCond (s : String) (l : Lead) : Bool :=
  containsCI l.name s ||
    (match l.email with | some e => containsCI e s | none => false) ||
    (match l.company with | some c => containsCI c s | none => false)

/-- The role-scope where-clause both listing routes start from. -/
def leadsRoleWhere (role : Role) (uid : Nat) : Lead → Bool :=
  match role with
  | .admin => fun _ => true
  | .lead_gen => fun l => l.assignedToId == none && l.status == Status.new
  | .outreach => fun l => l.assignedToId == none || l.assignedToId == some uid

/-- Query parameters of `GET /api/leads`. -/
structure LeadsQuery where
  status : Option String := none
  system : Option String := none
  search : Option String := none
  filter : Option String := none
deriving Repr

/-- The status-parameter branch of `GET /api/leads` (applied only when no
action filter is set, the status is not `'all'`, and the caller is not
lead_gen). -/
def leadsStatusCond (role : Role) (statusQ : Option String) : List (Lead → Bool) :=
  match statusQ with
  | some s =>
    if s != "all" && role != Role.lead_gen then
      [fun l => statusToString l.status == s]
    else []
  | none => []

/-- A "stale since" condition of the action filters: status equals `st` and
the given timestamp column is non-null and at least `days` days old. -/
def staleCond (st : Status) (field : Lead → Option Int) (days : Int)
    (now : Int) : Lead → Bool :=
  fun l => l.status == st &&
    (match field l with | none => false | some t => t ≤ now - days * dayMs)

/-- Role-clause and additional conditions produced by the action-filter /
status-parameter section of `GET /api/leads`.  For outreach with the
`unclaimed` filter the role clause itself is replaced by `assignedToId =
null`; an unrecognised non-`all` filter value adds nothing and suppresses
the status parameter. -/
def leadsGetParts (role : Role) (uid : Nat) (q : LeadsQuery) (now : Int) :
    (Lead → Bool) × List (Lead → Bool) :=
  match q.filter with
  | some f =>
    if f != "all" then
      if f == "unclaimed" then
        if role == Role.outreach then ((fun l => l.assignedToId == none), [])
        else (leadsRoleWhere role uid, [fun l => l.assignedToId == none])
      else if f == "texted_old" then
        (leadsRoleWhere role uid, [staleCond .texted (·.textedAt) 4 now])
      else if f == "first_followup_old" then
        (leadsRoleWhere role uid, [staleCond .first_followup (·.firstFollowupAt) 4 now])
      else if f == "replied_old" then
        (leadsRoleWhere role uid, [staleCond .replied (·.repliedAt) 6 now])
      else (leadsRoleWhere role uid, [])
    else (leadsRoleWhere role uid, leadsStatusCond role q.status)
  | none => (leadsRoleWhere role uid, leadsStatusCond role q.status)

/-- The complete where-clause of `GET /api/leads`: the (possibly replaced)
role clause AND-composed with the action/status, system and search
conditions. -/
def leadsGetWhere (role : Role) (uid : Nat) (q : LeadsQuery) (now : Int) :
    Lead → Bool :=
  let parts := leadsGetParts role uid q now
  let conds := parts.2 ++
    (match q.system with
     | some s => if s != "all" then [fun l => l.system == some s] else []
     | none => [])
  let conds := conds ++
    (match q.search with | some s => [searchCond s] | none => [])
  fun l => parts.1 l && conds.all (fun c => c l)

/-- Query parameters of `GET /api/leads/date-filter` (the required date
parameter is already resolved to the UTC day range `[dateStart, dateEnd]`;
`statuses` is the comma-split status list). -/
structure DateFilterQuery where
  statuses : List String := []
  system : Option String := none
  search : Option String := none
deriving Repr

/-- The per-condition system filter (`if (system && system !== 'all')`). -/
def systemOk (systemQ : Option String) (l : Lead) : Bool :=
  match systemQ with
  | some s => if s != "all" then l.system == some s else true
  | none => true

/-- Closed-interval membership for the day range. -/
def inRange (t dateStart dateEnd : Int) : Bool :=
  dateStart ≤ t && t ≤ dateEnd

/-- The `statusDateFieldMap` of the date-filter route. -/
def statusDateField (s : String) : Option (Lead → Option Int) :=
  if s == "texted" then some (fun l => l.textedAt)
  else if s == "replied" then some (fun l => l.repliedAt)
  else if s == "meeting_booked" then some (fun l => l.meetingBookedAt)
  else if s == "first_followup" then some (fun l => l.firstFollowupAt)
  else if s == "second_followup" then some (fun l => l.secondFollowupAt)
  else if s == "commented" then some (fun l => l.commentedAt)
  else none

/-- The OR-composed date/status conditions of the date-filter route:
created-on-date with a selected status, status changed to a selected status
on that date, or the status-specific date column on that date — or, with no
statuses selected, plain created-on-date. -/
def dateFilterConds (statuses : List String) (systemQ : Option String)
    (dateStart dateEnd : Int) (hist : List HistoryRow) : List (Lead → Bool) :=
  if statuses.length > 0 then
    let cond1 : Lead → Bool := fun l =>
      inRange l.createdAt dateStart dateEnd &&
        statuses.contains (statusToString l.status) && systemOk systemQ l
    let cond2 : Lead → Bool := fun l =>
      (rowsFor l.id hist).any (fun r =>
        statuses.contains (statusToString r.newStatus) &&
          inRange r.createdAt dateStart dateEnd) && systemOk systemQ l
    let cond3s := statuses.filterMap (fun s =>
      (statusDateField s).map (fun field => fun l =>
        (match field l with
         | some t => inRange t dateStart dateEnd
         | none => false) &&
          statusToString l.status == s && systemOk systemQ l))
    cond1 :: cond2 :: cond3s
  else
    [fun l => inRange l.createdAt dateStart dateEnd && systemOk systemQ l]

/-- The complete where-clause of `GET /api/leads/date-filter`: the role
clause ANDed with the OR of the date/status conditions and the optional
search condition. -/
def dateFilterWhere (role : Role) (uid : Nat) (q : DateFilterQuery)
    (dateStart dateEnd : Int) (hist : List HistoryRow) : Lead → Bool :=
  let roleWhere := leadsRoleWhere role uid
  let dateConds := dateFilterConds q.statuses q.system dateStart dateEnd hist
  let searchConds : List (Lead → Bool) :=
    match q.search with | some s => [searchCond s] | none => []
  fun l => roleWhere l && dateConds.any (fun c => c l) &&
    searchConds.all (fun c => c l)

/-- The role scope each returned lead must satisfy (the property the claims
state): lead_gen sees only unassigned leads with status `new`; outreach
never sees a lead assigned to a different, non-null user id. -/
def roleScopeOk (role : Role) (uid : Nat) (l : Lead) : Prop :=
  match role with
  | .admin => True
  | .lead_gen => l.assignedToId = none ∧ l.status = Status.new
  | .outreach => l.assignedToId = none ∨ l.assignedToId = some uid

/-! ## Sample data for concrete instantiations -/

/-- Sample overdue undone task used to instantiate universally quantified
theorems. -/
def sampleTask : Task :=
  { id := 0, title := "a", assignedToId := 1, createdById := 2,
    createdAt := 0, dueAt := 5, status := .undone }

/-- Sample store with no admin user and one stale second-followup lead. -/
def sampleNoAdminDb : DB :=
  { users := [{ id := 1, username := "o", role := .outreach }],
    leads := [{ id := 0, name := "x", status := .second_followup,
                secondFollowupAt := some 0 }],
    history := [], tasks := [] }

/-- Sample fresh lead for concrete runs. -/
def wLead : Lead := { id := 0, name := "x", status := .new }

/-- Sample one-lead store. -/
def wDb : DB := { users := [], leads := [wLead], history := [], tasks := [] }

/-- Sample status-change payload: move to `texted`. -/
def wData : UpdateLeadData := { status := some .texted }

/-- Sample admin session. -/
def wSession : Session := { id := 7, role := .admin }

/-- The lead `wLead` after the sample update: status `texted`, stamped at
time 42. -/
def wLead' : Lead := { id := 0, name := "x", status := .texted, textedAt := some 42 }

/-- The store after the sample update. -/
def wDb' : DB :=
  { users := [], leads := [wLead'],
    history := [{ leadId := 0, userId := 7, oldStatus := .new,
                  newStatus := .texted, reason := none, createdAt := 42 }],
    tasks := [] }

/-- Sample lead already assigned to user 1, and a store holding it. -/
def wLeadAssigned : Lead := { id := 0, name := "x", assignedToId := some 1 }

/-- Sample store holding only `wLeadAssigned`. -/
def wDbAssigned : DB :=
  { users := [], leads := [wLeadAssigned], history := [], tasks := [] }

/-- An empty store. -/
def emptyDb : DB := { users := [], leads := [], history := [], tasks := [] }

/-! # Theorems -/

/-- The backlog where-clause, unfolded to its proposition. -/
theorem overdueUndone_iff (now : Int) (t : Task) :
    overdueUndone now t = true ↔ (t.status = TaskStatus.undone ∧ t.dueAt < now) := by
  simp [overdueUndone]

/-- C8: the task backlog sweep moves every task with status `undone` and
`dueAt` in the past to `backlog`, and never changes a task whose status is
`done`, regardless of its `dueAt`. -/
theorem taskBacklog_sweep_moves_overdue_only (now : Int) (tasks : List Task)
    (n : Nat) (t : Task) (ht : tasks[n]? = some t) :
    (syncTaskBacklog now tasks).1[n]? =
      some (if t.status = TaskStatus.undone ∧ t.dueAt < now then
              { t with status := TaskStatus.backlog } else t) ∧
    (t.status = TaskStatus.done → (syncTaskBacklog now tasks).1[n]? = some t) := by
  have key : (syncTaskBacklog now tasks).1[n]? =
      some (if overdueUndone now t then { t with status := TaskStatus.backlog } else t) := by
    simp [syncTaskBacklog, List.getElem?_map, ht]
  have hiff := overdueUndone_iff now t
  constructor
  · rw [key]
    cases h : overdueUndone now t
    · rw [h] at hiff
      simp only [Bool.false_eq_true, false_iff] at hiff
      simp [hiff]
    · rw [h] at hiff
      simp only [true_iff] at hiff
      simp [hiff]
  · intro hdone
    rw [key]
    have : overdueUndone now t = false := by
      cases h : overdueUndone now t
      · rfl
      · rw [h] at hiff
        simp only [true_iff] at hiff
        rw [hdone] at hiff
        exact absurd hiff.1 (by simp)
    simp [this]

/-- Concrete instantiation of the C8 theorem: an overdue undone task moves
to backlog, a done task with the same overdue `dueAt` stays done. -/
theorem taskBacklog_sweep_moves_overdue_only_witness :
    ([sampleTask][0]? = some sampleTask) ∧
    ((syncTaskBacklog 10 [sampleTask]).1[0]? =
      some (if sampleTask.status = TaskStatus.undone ∧ sampleTask.dueAt < 10 then
              { sampleTask with status := TaskStatus.backlog }
            else sampleTask)) := by
  refine ⟨rfl, ?_⟩
  exact (taskBacklog_sweep_moves_overdue_only 10 [sampleTask] 0 sampleTask rfl).1

/-- C7 counterexample: `createTask` with an explicit `createdAt = 0` and no
`dueAt`, issued at request time `1000`, yields `dueAt = 1000 + 24h`, not
`createdAt + 24h = 0 + 24h`. -/
theorem createTask_dueAt_not_createdAt_based :
    createTaskOp 1000 (some 0) none "t" 1 2 =
      .ok { id := 0, title := "t", assignedToId := 1, createdById := 2,
            createdAt := 0, dueAt := 1000 + dayMs, status := .undone } ∧
    (1000 + dayMs : Int) ≠ 0 + dayMs := by
  exact ⟨rfl, by decide⟩

/-- C7 (amended): when `createdAt = D` is supplied and `dueAt` is not, the
resulting `dueAt` is the request time plus 24 hours (hence equals `D + 24h`
only when `D` is the request time); and whenever the effective `dueAt`
precedes the effective `createdAt`, the request is rejected with the
bad-input error and no task is created. -/
theorem createTask_default_and_validation :
    (∀ (now d : Int) (title : String) (a c : Nat), d ≤ now + dayMs →
      createTaskOp now (some d) none title a c =
        .ok { id := 0, title := title, assignedToId := a, createdById := c,
              createdAt := d, dueAt := now + dayMs, status := .undone }) ∧
    (∀ (now : Int) (cIn dIn : Option Int) (title : String) (a c : Nat),
      (cIn.isSome || dIn.isSome) = true →
      dIn.getD (now + dayMs) < cIn.getD now →
      createTaskOp now cIn dIn title a c = .error .invalidInput) := by
  constructor
  · intro now d title a c hd
    simp only [createTaskOp, Option.getD_some, Option.getD_none, Option.isSome_some,
      Option.isSome_none, Bool.true_or, if_true]
    rw [if_neg (not_lt.mpr hd)]
  · intro now cIn dIn title a c hsome hlt
    simp only [createTaskOp]
    rw [if_pos hsome, if_pos hlt]

/-- Concrete instantiation of the C7 amended theorem: both the default-due
branch and the rejection branch evaluated. -/
theorem createTask_default_and_validation_witness :
    ((0 : Int) ≤ 1000 + dayMs ∧
      createTaskOp 1000 (some 0) none "t" 1 2 =
        .ok { id := 0, title := "t", assignedToId := 1, createdById := 2,
              createdAt := 0, dueAt := 1000 + dayMs, status := .undone }) ∧
    (((some (5 : Int)).isSome || (some (3 : Int)).isSome) = true ∧
      ((some (3 : Int)).getD (1000 + dayMs) < (some (5 : Int)).getD 1000) ∧
      createTaskOp 1000 (some 5) (some 3) "t" 1 2 = .error .invalidInput) := by
  refine ⟨⟨by decide, ?_⟩, ⟨by decide, by decide, ?_⟩⟩
  · exact createTask_default_and_validation.1 1000 0 "t" 1 2 (by decide)
  · exact createTask_default_and_validation.2 1000 (some 5) (some 3) "t" 1 2
      (by decide) (by decide)

/-- C10: with no admin user in the store, the automation sweep leaves the
whole store untouched (no lead transitions, no history rows) and returns
`transitioned = 0` together with the error indication, instead of raising. -/
theorem automation_no_admin_noop (db : DB) (now : Int)
    (h : ∀ u ∈ db.users, u.role ≠ Role.admin) :
    runAutomationRules db now =
      (db, { transitioned := 0, error := some "No admin user found" }) := by
  have hnone : findFirstAdmin db.users = none := by
    unfold findFirstAdmin
    rw [List.find?_eq_none]
    intro u hu
    simp [h u hu]
  simp [runAutomationRules, hnone]

/-- Concrete instantiation of the C10 theorem: a store holding one outreach
user and one stale second-followup lead is unchanged by the sweep. -/
theorem automation_no_admin_noop_witness :
    (∀ u ∈ sampleNoAdminDb.users, u.role ≠ Role.admin) ∧
    runAutomationRules sampleNoAdminDb (5 * dayMs) =
      (sampleNoAdminDb, { transitioned := 0, error := some "No admin user found" }) := by
  refine ⟨by decide, ?_⟩
  exact automation_no_admin_noop sampleNoAdminDb (5 * dayMs) (by decide)

/-- Stripping the assignment field leaves the status field alone. -/
theorem stripAssign_status (r : Role) (d : UpdateLeadData) :
    (stripAssign r d).status = d.status := by
  unfold stripAssign; split <;> rfl

/-- Stripping the assignment field leaves the reason field alone. -/
theorem stripAssign_reason (r : Role) (d : UpdateLeadData) :
    (stripAssign r d).reason = d.reason := by
  unfold stripAssign; split <;> rfl

/-- C1: on a successful status-change update into one of the four stamped
statuses, the corresponding timestamp column is set to the transition time
when it was null before and left unchanged when it was already set. -/
theorem status_timestamps_write_once (db : DB) (s : Session) (leadId : Nat)
    (data : UpdateLeadData) (now : Int) (l l' : Lead) (db' : DB) (st : Status)
    (hfind : findLead db.leads leadId = some l)
    (hst : data.status = some st)
    (hchange : st ≠ l.status)
    (hrun : leadUpdate db s leadId data now = (.ok l', db')) :
    (st = .texted →
      l'.textedAt = if l.textedAt = none then some now else l.textedAt) ∧
    (st = .first_followup →
      l'.firstFollowupAt = if l.firstFollowupAt = none then some now else l.firstFollowupAt) ∧
    (st = .second_followup →
      l'.secondFollowupAt = if l.secondFollowupAt = none then some now else l.secondFollowupAt) ∧
    (st = .replied →
      l'.repliedAt = if l.repliedAt = none then some now else l.repliedAt) := by
  unfold leadUpdate leadUpdateF at hrun
  split at hrun
  case _ heq => rw [hfind] at heq; cases heq
  case _ existingLead heq =>
    rw [hfind] at heq
    injection heq with heq
    subst heq
    split at hrun
    · simp at hrun
    · split at hrun
      · simp at hrun
      · have hsc : statusChangeOf (stripAssign s.role data) l.status = true := by
          unfold statusChangeOf
          rw [stripAssign_status, hst]
          simpa using hchange
        have hgd : ((stripAssign s.role data).status).getD l.status = st := by
          rw [stripAssign_status, hst]; rfl
        simp only [hsc, hgd, Bool.false_eq_true, if_false, if_true,
          Prod.mk.injEq, UpdateResult.ok.injEq] at hrun
        obtain ⟨hl', -⟩ := hrun
        subst hl'
        refine ⟨?_, ?_, ?_, ?_⟩ <;> intro hstv <;> subst hstv
        · cases hT : l.textedAt <;> simp [applyUpdateData, stampFor, hT]
        · cases hT : l.firstFollowupAt <;> simp [applyUpdateData, stampFor, hT]
        · cases hT : l.secondFollowupAt <;> simp [applyUpdateData, stampFor, hT]
        · cases hT : l.repliedAt <;> simp [applyUpdateData, stampFor, hT]

/-- Concrete instantiation of the C1 theorem: updating `wLead` (no
`textedAt`) to `texted` at time 42 stamps `textedAt := 42`. -/
theorem status_timestamps_write_once_witness :
    findLead wDb.leads 0 = some wLead ∧
    leadUpdate wDb wSession 0 wData 42 = (.ok wLead', wDb') ∧
    (Status.texted = Status.texted →
      wLead'.textedAt = if wLead.textedAt = none then some 42 else wLead.textedAt) := by
  refine ⟨rfl, by decide, ?_⟩
  exact (status_timestamps_write_once wDb wSession 0 wData 42 wLead wLead' wDb'
    .texted rfl rfl (by decide) (by decide)).1

/-- A lead passing the role where-clause is inside the caller's scope. -/
theorem leadsRoleWhere_scope (role : Role) (uid : Nat) (l : Lead)
    (h : leadsRoleWhere role uid l = true) : roleScopeOk role uid l := by
  cases role <;> simp [leadsRoleWhere, roleScopeOk] at h ⊢ <;> tauto

/-- The (possibly replaced) role clause of `GET /api/leads` keeps every
returned lead inside the caller's scope. -/
theorem leadsGetParts_scope (role : Role) (uid : Nat) (q : LeadsQuery)
    (now : Int) (l : Lead)
    (h : (leadsGetParts role uid q now).1 l = true) : roleScopeOk role uid l := by
  unfold leadsGetParts at h
  rcases hf : q.filter with _ | f <;> rw [hf] at h
  · exact leadsRoleWhere_scope role uid l h
  · simp only at h
    split at h
    all_goals try split at h
    all_goals try split at h
    all_goals try split at h
    all_goals try split at h
    all_goals
      first
        | exact leadsRoleWhere_scope role uid l (by simpa using h)
        | (cases role <;> simp_all [roleScopeOk, leadsRoleWhere])

/-- C5: every lead satisfying the where-clause of `GET /api/leads` or of
`GET /api/leads/date-filter` — for any combination of client-supplied
status, action-filter, system, search, statuses and date parameters — is
inside the caller's role scope: for lead_gen, unassigned with status `new`;
for outreach, unassigned or assigned to the caller. -/
theorem listing_respects_role_scope (role : Role) (uid : Nat) (l : Lead) :
    (∀ (q : LeadsQuery) (now : Int),
      leadsGetWhere role uid q now l = true → roleScopeOk role uid l) ∧
    (∀ (q : DateFilterQuery) (dateStart dateEnd : Int) (hist : List HistoryRow),
      dateFilterWhere role uid q dateStart dateEnd hist l = true →
        roleScopeOk role uid l) := by
  constructor
  · intro q now h
    unfold leadsGetWhere at h
    simp only [Bool.and_eq_true] at h
    exact leadsGetParts_scope role uid q now l h.1
  · intro q dateStart dateEnd hist h
    unfold dateFilterWhere at h
    simp only [Bool.and_eq_true] at h
    exact leadsRoleWhere_scope role uid l h.1.1

/-- Concrete instantiation of the C5 theorem: an outreach caller listing
with default parameters sees the unassigned sample lead, which is in
scope. -/
theorem listing_respects_role_scope_witness :
    leadsGetWhere Role.outreach 1 {} 0 wLead = true ∧
    roleScopeOk Role.outreach 1 wLead := by
  refine ⟨by decide, ?_⟩
  exact (listing_respects_role_scope Role.outreach 1 wLead).1 {} 0 (by decide)

/-- Updating the lead with a given id rewrites exactly that row under
`findLead`, provided the update preserves the id. -/
theorem findLead_updateLeadById (ls : List Lead) (i : Nat) (f : Lead → Lead)
    (hf : ∀ l, (f l).id = l.id) :
    findLead (updateLeadById ls i f) i = (findLead ls i).map f := by
  induction ls with
  | nil => rfl
  | cons a tl ih =>
    by_cases ha : a.id = i
    · simp [findLead, updateLeadById, List.find?_cons, ha, hf a]
    · simpa [findLead, updateLeadById, List.find?_cons, ha] using ih

/-- C9: claiming a lead already assigned to the actor succeeds, appends one
new StatusHistory row on each call, and leaves `assignedToId` unchanged;
claiming a lead assigned to a different user fails with the conflict error
and does not mutate the store at all. -/
theorem claim_idempotent_same_actor (db : DB) (uid : Nat) (role : Role)
    (leadId : Nat) (now : Int) (l : Lead)
    (hrole : role = Role.outreach ∨ role = Role.admin)
    (hfind : findLead db.leads leadId = some l) :
    (l.assignedToId = some uid →
      claimRun uid role leadId now db =
        ({ db with
            history := db.history ++ [claimRow leadId uid l.status now],
            leads := updateLeadById db.leads leadId
              (fun x => { x with assignedToId := some uid }) },
         .done .ok) ∧
      (findLead (claimRun uid role leadId now db).1.leads leadId).map
          (fun x => x.assignedToId) = some (some uid)) ∧
    (∀ v, l.assignedToId = some v → v ≠ uid →
      claimRun uid role leadId now db = (db, .done .alreadyAssigned)) := by
  have h1 : ¬(¬role = Role.outreach ∧ ¬role = Role.admin) := by
    rcases hrole with h | h <;> subst h <;> simp
  constructor
  · intro ha
    have h2 : ¬(¬l.assignedToId = none ∧ ¬l.assignedToId = some uid) := by
      rw [ha]; simp
    have run : claimRun uid role leadId now db =
        ({ db with
            history := db.history ++ [claimRow leadId uid l.status now],
            leads := updateLeadById db.leads leadId
              (fun x => { x with assignedToId := some uid }) },
         .done .ok) := by
      simp [claimRun, claimStep, hfind, h1, h2]
    refine ⟨run, ?_⟩
    rw [run]
    simp only
    rw [findLead_updateLeadById db.leads leadId
      (fun x => { x with assignedToId := some uid }) (fun _ => rfl), hfind]
    rfl
  · intro v hv hne
    have h2 : ¬l.assignedToId = none ∧ ¬l.assignedToId = some uid := by
      rw [hv]; exact ⟨by simp, by simp [hne]⟩
    simp [claimRun, claimStep, hfind, h1, h2]

/-- Concrete instantiation of the C9 theorem: user 1 re-claims a lead
already assigned to user 1; one history row is appended, `assignedToId`
stays `some 1`. -/
theorem claim_idempotent_same_actor_witness :
    (findLead wDbAssigned.leads 0 = some wLeadAssigned) ∧
    (findLead (claimRun 1 Role.outreach 0 9 wDbAssigned).1.leads 0).map
      (fun x => x.assignedToId) = some (some 1) := by
  refine ⟨rfl, ?_⟩
  exact ((claim_idempotent_same_actor wDbAssigned 1 Role.outreach 0 9 wLeadAssigned
    (Or.inl rfl) rfl).1 rfl).2

/-- C3 counterexample: two interleaved claim requests by users 1 and 2 on
the same unclaimed lead (both reads before both writes) BOTH report
success — neither receives the conflict failure — and the later write wins
the assignment, because the store-level update is a blind overwrite rather
than a compare-and-swap. -/
theorem claim_race_both_succeed :
    (runClaims 0 5 { users := [], leads := [wLead], history := [], tasks := [] }
        { userId := 1, role := .outreach, phase := .start }
        { userId := 2, role := .outreach, phase := .start }
        [true, false, true, true, false, false]).2.1.phase = .done .ok ∧
    (runClaims 0 5 { users := [], leads := [wLead], history := [], tasks := [] }
        { userId := 1, role := .outreach, phase := .start }
        { userId := 2, role := .outreach, phase := .start }
        [true, false, true, true, false, false]).2.2.phase = .done .ok ∧
    (runClaims 0 5 { users := [], leads := [wLead], history := [], tasks := [] }
        { userId := 1, role := .outreach, phase := .start }
        { userId := 2, role := .outreach, phase := .start }
        [true, false, true, true, false, false]).1.leads.map
      (fun l => l.assignedToId) = [some 2] := by
  refine ⟨rfl, rfl, rfl⟩

/-- C3 (amended): the claim handler is an application-level check-then-write
— the store update is a blind overwrite conditioned only on the lead id.
When the two claim attempts do not interleave (the second starts after the
first completes), exactly one succeeds and the other receives the conflict
failure without mutating the store; when both reads precede both writes,
both succeed and the last writer holds the assignment (the interleaved
execution is exhibited by the counterexample). -/
theorem claim_sequential_exclusive (db : DB) (u1 u2 : Nat) (r1 r2 : Role)
    (leadId : Nat) (now : Int) (l : Lead)
    (hfind : findLead db.leads leadId = some l)
    (hun : l.assignedToId = none)
    (hne : u1 ≠ u2)
    (hr1 : r1 = Role.outreach ∨ r1 = Role.admin)
    (hr2 : r2 = Role.outreach ∨ r2 = Role.admin) :
    (claimRun u1 r1 leadId now db).2 = .done .ok ∧
    (claimRun u2 r2 leadId now (claimRun u1 r1 leadId now db).1).2 =
      .done .alreadyAssigned ∧
    (claimRun u2 r2 leadId now (claimRun u1 r1 leadId now db).1).1 =
      (claimRun u1 r1 leadId now db).1 ∧
    (findLead (claimRun u1 r1 leadId now db).1.leads leadId).map
      (fun x => x.assignedToId) = some (some u1) := by
  have hd1 : ¬(¬r1 = Role.outreach ∧ ¬r1 = Role.admin) := by
    rcases hr1 with h | h <;> subst h <;> simp
  have hd2 : ¬(¬r2 = Role.outreach ∧ ¬r2 = Role.admin) := by
    rcases hr2 with h | h <;> subst h <;> simp
  have hchk : ¬(¬l.assignedToId = none ∧ ¬l.assignedToId = some u1) := by
    rw [hun]; simp
  have run1 : claimRun u1 r1 leadId now db =
      (afterClaim db leadId u1 l.status now, .done .ok) := by
    simp [claimRun, claimStep, hfind, hd1, hchk, afterClaim]
  have hfind1 : findLead (afterClaim db leadId u1 l.status now).leads leadId =
      some { l with assignedToId := some u1 } := by
    unfold afterClaim
    simp only
    rw [findLead_updateLeadById db.leads leadId
      (fun x => { x with assignedToId := some u1 }) (fun _ => rfl), hfind]
    rfl
  have hchk2 : ¬(some u1 : Option Nat) = none ∧ ¬(some u1 : Option Nat) = some u2 := by
    exact ⟨by simp, by simp [hne]⟩
  have run2 : claimRun u2 r2 leadId now (afterClaim db leadId u1 l.status now) =
      (afterClaim db leadId u1 l.status now, .done .alreadyAssigned) := by
    simp [claimRun, claimStep, hfind1, hd2, hchk2]
  refine ⟨by rw [run1], ?_, ?_, ?_⟩
  · rw [run1]
    show (claimRun u2 r2 leadId now (afterClaim db leadId u1 l.status now)).2 = _
    rw [run2]
  · rw [run1]
    show (claimRun u2 r2 leadId now (afterClaim db leadId u1 l.status now)).1 =
      afterClaim db leadId u1 l.status now
    rw [run2]
  · rw [run1]
    show (findLead (afterClaim db leadId u1 l.status now).leads leadId).map
      (fun x => x.assignedToId) = some (some u1)
    rw [hfind1]
    rfl

/-- Concrete instantiation of the C3 amended theorem: sequential claims by
users 1 then 2 on an unclaimed lead — the first succeeds, the second gets
the conflict failure. -/
theorem claim_sequential_exclusive_witness :
    findLead wDb.leads 0 = some wLead ∧
    (claimRun 1 Role.outreach 0 9 wDb).2 = .done .ok ∧
    (claimRun 2 Role.outreach 0 9 (claimRun 1 Role.outreach 0 9 wDb).1).2 =
      .done .alreadyAssigned := by
  have h := claim_sequential_exclusive wDb 1 2 Role.outreach Role.outreach 0 9 wLead
    rfl rfl (by decide) (Or.inl rfl) (Or.inl rfl)
  exact ⟨rfl, h.1, h.2.1⟩

/-- Component-wise description of the sweep loop: users and tasks are
untouched, one junk row is appended per candidate, and the lead table is
the fold of the per-candidate updates. -/
theorem sweep_foldl_parts (adminId : Nat) (now : Int) (cands : List Lead)
    (db : DB) :
    (cands.foldl (sweepStep adminId now) db).users = db.users ∧
    (cands.foldl (sweepStep adminId now) db).tasks = db.tasks ∧
    (cands.foldl (sweepStep adminId now) db).history =
      db.history ++ cands.map (junkRow adminId now) ∧
    (cands.foldl (sweepStep adminId now) db).leads =
      cands.foldl (fun ls c => updateLeadById ls c.id junkify) db.leads := by
  induction cands generalizing db with
  | nil => simp
  | cons c cs ih =>
    simp only [List.foldl_cons, List.map_cons]
    obtain ⟨h1, h2, h3, h4⟩ := ih (sweepStep adminId now db c)
    refine ⟨h1.trans rfl, h2.trans rfl, ?_, ?_⟩
    · rw [h3]
      show (db.history ++ [junkRow adminId now c]) ++ cs.map (junkRow adminId now) = _
      rw [List.append_assoc]
      rfl
    · exact h4

/-- The fold of per-candidate row updates acts on each row separately. -/
theorem foldl_update_eq_map (cands ls : List Lead) :
    cands.foldl (fun ls c => updateLeadById ls c.id junkify) ls =
      ls.map (fun l =>
        cands.foldl (fun x c => if x.id == c.id then junkify x else x) l) := by
  induction cands generalizing ls with
  | nil => simp
  | cons c cs ih =>
    simp only [List.foldl_cons]
    rw [ih]
    unfold updateLeadById
    rw [List.map_map]
    rfl

/-- Folding the per-row update over the candidate list junks the row iff
some candidate shares its id (junking twice is the same as once). -/
theorem perLead_foldl (cands : List Lead) (l : Lead) :
    cands.foldl (fun x c => if x.id == c.id then junkify x else x) l =
      if cands.any (fun c => c.id == l.id) then junkify l else l := by
  induction cands generalizing l with
  | nil => simp
  | cons c cs ih =>
    simp only [List.foldl_cons, List.any_cons]
    by_cases h : l.id = c.id
    · have h1 : (l.id == c.id) = true := by simpa using h
      have h2 : (c.id == l.id) = true := by simpa using h.symm
      simp only [h1, if_true, h2, Bool.true_or]
      rw [ih (junkify l)]
      have h3 : (fun c' : Lead => c'.id == (junkify l).id) = (fun c' : Lead => c'.id == l.id) := rfl
      rw [h3]
      split <;> rfl
    · have h1 : (l.id == c.id) = false := by simpa using h
      have h2 : (c.id == l.id) = false := by simpa using (Ne.symm h)
      simp only [h1, h2, Bool.false_or, if_false]
      exact ih l

/-- With pairwise-distinct lead ids, some sweep candidate shares a stored
lead's id exactly when that lead itself is a candidate. -/
theorem any_candidate_id_iff_stale (ls : List Lead) (now : Int) (l : Lead)
    (hnd : (ls.map (fun x => x.id)).Nodup) (hl : l ∈ ls) :
    (ls.filter (staleSecondFollowup now)).any (fun c => c.id == l.id) =
      staleSecondFollowup now l := by
  cases hs : staleSecondFollowup now l
  · cases ha : (ls.filter (staleSecondFollowup now)).any (fun c => c.id == l.id)
    · rfl
    · exfalso
      rw [List.any_eq_true] at ha
      obtain ⟨c, hc, hcid⟩ := ha
      rw [List.mem_filter] at hc
      have hceq : c = l :=
        List.inj_on_of_nodup_map hnd hc.1 hl (by simpa using hcid)
      rw [hceq] at hc
      rw [hc.2] at hs
      cases hs
  · rw [List.any_eq_true]
    exact ⟨l, List.mem_filter.mpr ⟨hl, hs⟩, by simp⟩

/-- With pairwise-distinct lead ids the sweep's effect on the lead table is
exactly `junkIf` applied to every row. -/
theorem sweep_leads_eq (db : DB) (now : Int)
    (hnd : (db.leads.map (fun x => x.id)).Nodup) :
    (db.leads.filter (staleSecondFollowup now)).foldl
        (fun ls c => updateLeadById ls c.id junkify) db.leads =
      db.leads.map (junkIf now) := by
  rw [foldl_update_eq_map]
  apply List.map_congr_left
  intro l hl
  rw [perLead_foldl, any_candidate_id_iff_stale db.leads now l hnd hl]
  rfl

/-- A lead is never a sweep candidate after the sweep has processed it. -/
theorem junkIf_not_stale (now : Int) (l : Lead) :
    staleSecondFollowup now (junkIf now l) = false := by
  unfold junkIf
  split
  · simp [staleSecondFollowup, junkify]
  · rename_i h
    simpa using h

/-- Unfolding `runAutomationRules` componentwise when an admin exists. -/
theorem runAutomation_components (db : DB) (now : Int) (a : User)
    (hadmin : findFirstAdmin db.users = some a) :
    (runAutomationRules db now).1.users = db.users ∧
    (runAutomationRules db now).1.tasks = db.tasks ∧
    (runAutomationRules db now).1.history =
      db.history ++
        (db.leads.filter (staleSecondFollowup now)).map (junkRow a.id now) ∧
    (runAutomationRules db now).1.leads =
      (db.leads.filter (staleSecondFollowup now)).foldl
        (fun ls c => updateLeadById ls c.id junkify) db.leads ∧
    (runAutomationRules db now).2 =
      { transitioned := (db.leads.filter (staleSecondFollowup now)).length,
        error := none } := by
  unfold runAutomationRules
  rw [hadmin]
  simp only
  obtain ⟨h1, h2, h3, h4⟩ :=
    sweep_foldl_parts a.id now (db.leads.filter (staleSecondFollowup now)) db
  exact ⟨h1, h2, h3, h4, trivial⟩

/-- A sweep on a store with no candidates (and an admin) changes nothing. -/
theorem sweep_no_candidates (db : DB) (now : Int) (a : User)
    (hadmin : findFirstAdmin db.users = some a)
    (hnil : db.leads.filter (staleSecondFollowup now) = []) :
    runAutomationRules db now = (db, { transitioned := 0, error := none }) := by
  unfold runAutomationRules
  rw [hadmin]
  simp only [hnil]
  rfl

/-- C6: with an admin present and distinct lead ids, the sweep junks
exactly the leads with status `second_followup` and `secondFollowupAt` at
least 4 days old (one 4 days + 1 second past transitions, one 3 days past
does not), never re-touches a lead already junked, and running the sweep
again right after has no further effect. -/
theorem automation_junk_exactly_stale (db : DB) (now : Int) (a : User)
    (hadmin : findFirstAdmin db.users = some a)
    (hnd : (db.leads.map (fun x => x.id)).Nodup) :
    (runAutomationRules db now).1.leads = db.leads.map (junkIf now) ∧
    (∀ l : Lead, staleSecondFollowup now l = true ↔
      (l.status = Status.second_followup ∧
        ∃ t, l.secondFollowupAt = some t ∧ t ≤ now - 4 * dayMs)) ∧
    (∀ l : Lead, l.status = Status.second_followup →
      (junkIf now { l with secondFollowupAt := some (now - 4 * dayMs - 1000) }).status
          = Status.junk ∧
      junkIf now { l with secondFollowupAt := some (now - 3 * dayMs) } =
        { l with secondFollowupAt := some (now - 3 * dayMs) }) ∧
    (∀ l : Lead, l.status = Status.junk → junkIf now l = l) ∧
    runAutomationRules (runAutomationRules db now).1 now =
      ((runAutomationRules db now).1, { transitioned := 0, error := none }) := by
  have hcomp := runAutomation_components db now a hadmin
  have hleads : (runAutomationRules db now).1.leads = db.leads.map (junkIf now) :=
    (hcomp.2.2.2.1).trans (sweep_leads_eq db now hnd)
  refine ⟨hleads, ?_, ?_, ?_, ?_⟩
  · intro l
    cases hsf : l.secondFollowupAt <;> simp [staleSecondFollowup, hsf]
  · intro l hl
    constructor
    · have hstale : staleSecondFollowup now
          { l with secondFollowupAt := some (now - 4 * dayMs - 1000) } = true := by
        simp [staleSecondFollowup, hl]
      simp [junkIf, hstale, junkify]
    · have hstale : staleSecondFollowup now
          { l with secondFollowupAt := some (now - 3 * dayMs) } = false := by
        simp [staleSecondFollowup, dayMs]
        omega
      simp [junkIf, hstale]
  · intro l hl
    simp [junkIf, staleSecondFollowup, hl]
  · apply sweep_no_candidates
    · rw [hcomp.1]; exact hadmin
    · rw [hleads]
      rw [List.filter_eq_nil_iff]
      intro l' hl'
      obtain ⟨l, hl, rfl⟩ := List.mem_map.mp hl'
      simp [junkIf_not_stale]

/-- Sample store for the C6 witness: an admin plus one stale and one fresh
second-followup lead, with distinct ids. -/
def sweepDb : DB :=
  { users := [{ id := 9, username := "boss", role := .admin }],
    leads := [{ id := 0, name := "x", status := .second_followup,
                secondFollowupAt := some 0 },
              { id := 1, name := "y", status := .second_followup,
                secondFollowupAt := some (5 * dayMs) }],
    history := [], tasks := [] }

/-- Concrete instantiation of the C6 theorem at time `5 * dayMs`: the lead
5 days stale is junked, the fresh one is untouched, and a second sweep is a
no-op. -/
theorem automation_junk_exactly_stale_witness :
    findFirstAdmin sweepDb.users = some { id := 9, username := "boss", role := .admin } ∧
    (runAutomationRules sweepDb (5 * dayMs)).1.leads =
      sweepDb.leads.map (junkIf (5 * dayMs)) ∧
    runAutomationRules (runAutomationRules sweepDb (5 * dayMs)).1 (5 * dayMs) =
      ((runAutomationRules sweepDb (5 * dayMs)).1,
       { transitioned := 0, error := none }) := by
  have h := automation_junk_exactly_stale sweepDb (5 * dayMs)
    { id := 9, username := "boss", role := .admin } rfl (by decide)
  exact ⟨rfl, h.1, h.2.2.2.2⟩

/-- Appending one row makes it the most recent one. -/
theorem getLast_append_singleton {α : Type} (xs : List α) (a : α) :
    (xs ++ [a]).getLast? = some a := by
  simp [List.getLast?_concat]

/-- `rowsFor` distributes over appended history segments. -/
theorem rowsFor_append (i : Nat) (h1 h2 : List HistoryRow) :
    rowsFor i (h1 ++ h2) = rowsFor i h1 ++ rowsFor i h2 := by
  unfold rowsFor
  exact List.filter_append h1 h2

/-- A single row for the lead itself survives `rowsFor`. -/
theorem rowsFor_single (i : Nat) (r : HistoryRow) (hr : r.leadId = i) :
    rowsFor i [r] = [r] := by
  simp [rowsFor, hr]

/-- `findLead` commutes with an id-preserving row transformation. -/
theorem findLead_map (ls : List Lead) (g : Lead → Lead) (i : Nat)
    (hg : ∀ l, (g l).id = l.id) :
    findLead (ls.map g) i = (findLead ls i).map g := by
  induction ls with
  | nil => rfl
  | cons a tl ih =>
    by_cases ha : a.id = i
    · simp [findLead, List.find?_cons, ha, hg a]
    · simpa [findLead, List.find?_cons, ha, hg a] using ih

/-- The applied update never changes the row id. -/
theorem applyUpdateData_id (d : UpdateLeadData) (stamp : Option Status)
    (now : Int) (l : Lead) : (applyUpdateData d stamp now l).id = l.id := by
  unfold applyUpdateData
  rcases stamp with _ | st
  · rfl
  · cases st <;> rfl

/-- The applied update sets the status to the payload status when present. -/
theorem applyUpdateData_status (d : UpdateLeadData) (stamp : Option Status)
    (now : Int) (l : Lead) :
    (applyUpdateData d stamp now l).status = (d.status).getD l.status := by
  unfold applyUpdateData
  rcases stamp with _ | st
  · rfl
  · cases st <;> rfl

/-- A claim whose role and snapshot checks pass runs to the post-claim
store with outcome ok. -/
theorem claimRun_success_eq (db : DB) (uid : Nat) (role : Role)
    (leadId : Nat) (now : Int) (l : Lead)
    (h1 : ¬(¬role = Role.outreach ∧ ¬role = Role.admin))
    (hfind : findLead db.leads leadId = some l)
    (h2 : ¬(¬l.assignedToId = none ∧ ¬l.assignedToId = some uid)) :
    claimRun uid role leadId now db =
      (afterClaim db leadId uid l.status now, .done .ok) := by
  simp [claimRun, claimStep, hfind, h1, h2, afterClaim]

/-- An unclaim whose checks pass appends the unclaim row and clears the
assignment. -/
theorem unclaim_success_eq (db : DB) (s : Session) (leadId : Nat) (now : Int)
    (l : Lead) (v : Nat)
    (hrole : s.role = Role.outreach ∨ s.role = Role.admin)
    (hfind : findLead db.leads leadId = some l)
    (hv : l.assignedToId = some v)
    (hown : s.role = Role.outreach → v = s.id) :
    unclaim db s leadId now =
      (.ok,
       { db with
         history := db.history ++
           [{ leadId := leadId, userId := s.id, oldStatus := l.status,
              newStatus := l.status, reason := some "Lead unclaimed",
              createdAt := now }],
         leads := updateLeadById db.leads leadId
           (fun x => { x with assignedToId := none }) }) := by
  have h1 : ¬(¬s.role = Role.outreach ∧ ¬s.role = Role.admin) := by
    rcases hrole with h | h <;> simp [h]
  rcases hrole with h | h
  · have hvid : v = s.id := hown h
    subst hvid
    simp [unclaim, hfind, h1, h, hv]
  · have h2 : ¬(s.role = Role.outreach ∧ ¬l.assignedToId = some s.id) := by
      rw [h]; simp
    simp [unclaim, hfind, h1, h2, hv, h]

/-- With distinct ids, the only candidate sharing a stale stored lead's id
is that lead itself. -/
theorem filter_candidate_single (ls : List Lead) (p : Lead → Bool) (i : Nat)
    (l : Lead) (hnd : (ls.map (fun x => x.id)).Nodup)
    (hfind : findLead ls i = some l) (hp : p l = true) :
    (ls.filter p).filter (fun x => x.id == i) = [l] := by
  induction ls with
  | nil => cases hfind
  | cons a tl ih =>
    rw [List.map_cons, List.nodup_cons] at hnd
    unfold findLead at hfind
    by_cases ha : a.id = i
    · rw [List.find?_cons_of_pos _ (by simpa using ha)] at hfind
      injection hfind with hfind
      subst hfind
      have htl : (tl.filter p).filter (fun x => x.id == i) = [] := by
        rw [List.filter_eq_nil_iff]
        intro x hx hxi
        have hxid : x.id = i := by simpa using hxi
        apply hnd.1
        rw [ha, ← hxid]
        exact List.mem_map_of_mem (fun y => y.id) (List.mem_filter.mp hx).1
      simp [List.filter_cons, hp, ha, htl]
    · rw [List.find?_cons_of_neg _ (by simpa using ha)] at hfind
      have ihr := ih hnd.2 hfind
      by_cases hpa : p a = true
      · simp [List.filter_cons, hpa, ha, ihr]
      · simp [List.filter_cons, hpa, ihr]

/-- `rowsFor` of the sweep's appended rows selects the candidates with the
given lead id. -/
theorem rowsFor_map_junkRow (a : Nat) (now : Int) (i : Nat)
    (cands : List Lead) :
    rowsFor i (cands.map (junkRow a now)) =
      (cands.filter (fun c => c.id == i)).map (junkRow a now) := by
  induction cands with
  | nil => rfl
  | cons c cs ih =>
    unfold rowsFor at ih ⊢
    by_cases hc : c.id = i
    · simp [List.filter_cons, junkRow, hc, ih]
    · simp [List.filter_cons, junkRow, hc, ih]

/-- C2 counterexample: creating a lead writes no StatusHistory row at all,
so for a freshly created lead there is no most recent history row whose
`newStatus` could equal the stored status. -/
theorem create_lead_writes_no_history :
    rowsFor 0 (createLead emptyDb wSession 0 { name := "Alex" } 5).1.history = [] ∧
    (createLead emptyDb wSession 0 { name := "Alex" } 5).2.status = Status.new ∧
    ¬∃ r : HistoryRow,
      (rowsFor 0 (createLead emptyDb wSession 0 { name := "Alex" } 5).1.history).getLast?
          = some r ∧
        r.newStatus = (createLead emptyDb wSession 0 { name := "Alex" } 5).2.status := by
  refine ⟨rfl, rfl, ?_⟩
  rintro ⟨r, hr, -⟩
  simp [createLead, rowsFor, emptyDb] at hr

/-- C2 (amended): every status mutation — successful manual status-change
update, claim, unclaim, and per-lead automation transition — appends exactly
one StatusHistory row for the lead, and afterwards the `newStatus` of the
lead's most recent row equals the lead's stored status.  (A freshly created
lead is excluded: creation writes no history row, as the counterexample
shows, so the invariant holds from the first status mutation onward.) -/
theorem status_mutation_appends_one_row :
    (∀ (db : DB) (s : Session) (leadId : Nat) (data : UpdateLeadData) (now : Int)
        (l l' : Lead) (db' : DB) (st : Status),
      findLead db.leads leadId = some l →
      data.status = some st → st ≠ l.status →
      leadUpdate db s leadId data now = (.ok l', db') →
      ∃ row, rowsFor leadId db'.history = rowsFor leadId db.history ++ [row] ∧
        (rowsFor leadId db'.history).getLast? = some row ∧
        (findLead db'.leads leadId).map (fun x => x.status) = some row.newStatus) ∧
    (∀ (db : DB) (uid : Nat) (role : Role) (leadId : Nat) (now : Int) (l : Lead),
      (role = Role.outreach ∨ role = Role.admin) →
      findLead db.leads leadId = some l →
      (l.assignedToId = none ∨ l.assignedToId = some uid) →
      ∃ row, rowsFor leadId (claimRun uid role leadId now db).1.history =
          rowsFor leadId db.history ++ [row] ∧
        (rowsFor leadId (claimRun uid role leadId now db).1.history).getLast? = some row ∧
        (findLead (claimRun uid role leadId now db).1.leads leadId).map (fun x => x.status)
            = some row.newStatus) ∧
    (∀ (db : DB) (s : Session) (leadId : Nat) (now : Int) (l : Lead) (v : Nat),
      (s.role = Role.outreach ∨ s.role = Role.admin) →
      findLead db.leads leadId = some l →
      l.assignedToId = some v →
      (s.role = Role.outreach → v = s.id) →
      ∃ row, rowsFor leadId (unclaim db s leadId now).2.history =
          rowsFor leadId db.history ++ [row] ∧
        (rowsFor leadId (unclaim db s leadId now).2.history).getLast? = some row ∧
        (findLead (unclaim db s leadId now).2.leads leadId).map (fun x => x.status)
            = some row.newStatus) ∧
    (∀ (db : DB) (now : Int) (a : User) (leadId : Nat) (l : Lead),
      findFirstAdmin db.users = some a →
      (db.leads.map (fun x => x.id)).Nodup →
      findLead db.leads leadId = some l →
      staleSecondFollowup now l = true →
      ∃ row, rowsFor leadId (runAutomationRules db now).1.history =
          rowsFor leadId db.history ++ [row] ∧
        (rowsFor leadId (runAutomationRules db now).1.history).getLast? = some row ∧
        (findLead (runAutomationRules db now).1.leads leadId).map (fun x => x.status)
            = some row.newStatus) := by
  refine ⟨?_, ?_, ?_, ?_⟩
  · intro db s leadId data now l l' db' st hfind hst hchange hrun
    unfold leadUpdate leadUpdateF at hrun
    split at hrun
    case _ heq => rw [hfind] at heq; cases heq
    case _ existingLead heq =>
      rw [hfind] at heq
      injection heq with heq
      subst heq
      split at hrun
      · simp at hrun
      · split at hrun
        · simp at hrun
        · have hsc : statusChangeOf (stripAssign s.role data) l.status = true := by
            unfold statusChangeOf
            rw [stripAssign_status, hst]
            simpa using hchange
          have hgd : ((stripAssign s.role data).status).getD l.status = st := by
            rw [stripAssign_status, hst]; rfl
          simp only [hsc, hgd, Bool.false_eq_true, if_false, if_true,
            Prod.mk.injEq, UpdateResult.ok.injEq] at hrun
          obtain ⟨-, hdb'⟩ := hrun
          subst hdb'
          refine ⟨changeRow leadId s.id l (stripAssign s.role data) now, ?_, ?_, ?_⟩
          · show rowsFor leadId
                (db.history ++ [changeRow leadId s.id l (stripAssign s.role data) now]) = _
            rw [rowsFor_append, rowsFor_single leadId _ rfl]
          · show (rowsFor leadId
                (db.history ++ [changeRow leadId s.id l (stripAssign s.role data) now])).getLast?
              = _
            rw [rowsFor_append, rowsFor_single leadId _ rfl]
            exact getLast_append_singleton _ _
          · show (findLead (updateLeadById db.leads leadId
                (fun x => applyUpdateData (stripAssign s.role data) (stampFor l st) now x))
                leadId).map (fun x => x.status) = _
            rw [findLead_updateLeadById db.leads leadId
              (fun x => applyUpdateData (stripAssign s.role data) (stampFor l st) now x)
              (fun x => applyUpdateData_id _ _ _ _), hfind]
            simp [applyUpdateData_status, stripAssign_status, hst, changeRow]
  · intro db uid role leadId now l hrole hfind hok
    have h1 : ¬(¬role = Role.outreach ∧ ¬role = Role.admin) := by
      rcases hrole with h | h <;> simp [h]
    have h2 : ¬(¬l.assignedToId = none ∧ ¬l.assignedToId = some uid) := by
      rcases hok with h | h <;> simp [h]
    have run := claimRun_success_eq db uid role leadId now l h1 hfind h2
    rw [run]
    refine ⟨claimRow leadId uid l.status now, ?_, ?_, ?_⟩
    · show rowsFor leadId (afterClaim db leadId uid l.status now).history = _
      unfold afterClaim
      simp only
      rw [rowsFor_append, rowsFor_single leadId _ rfl]
    · show (rowsFor leadId (afterClaim db leadId uid l.status now).history).getLast? = _
      unfold afterClaim
      simp only
      rw [rowsFor_append, rowsFor_single leadId _ rfl]
      exact getLast_append_singleton _ _
    · show (findLead (afterClaim db leadId uid l.status now).leads leadId).map
        (fun x => x.status) = _
      unfold afterClaim
      simp only
      rw [findLead_updateLeadById db.leads leadId
        (fun x => { x with assignedToId := some uid }) (fun _ => rfl), hfind]
      rfl
  · intro db s leadId now l v hrole hfind hv hown
    have run := unclaim_success_eq db s leadId now l v hrole hfind hv hown
    rw [run]
    refine ⟨{ leadId := leadId, userId := s.id, oldStatus := l.status,
              newStatus := l.status, reason := some "Lead unclaimed",
              createdAt := now }, ?_, ?_, ?_⟩
    · show rowsFor leadId (db.history ++ [_]) = _
      rw [rowsFor_append, rowsFor_single leadId _ rfl]
    · show (rowsFor leadId (db.history ++ [_])).getLast? = _
      rw [rowsFor_append, rowsFor_single leadId _ rfl]
      exact getLast_append_singleton _ _
    · show (findLead (updateLeadById db.leads leadId
          (fun x => { x with assignedToId := none })) leadId).map (fun x => x.status) = _
      rw [findLead_updateLeadById db.leads leadId
        (fun x => { x with assignedToId := none }) (fun _ => rfl), hfind]
      rfl
  · intro db now a leadId l hadmin hnd hfind hstale
    have hcomp := runAutomation_components db now a hadmin
    have hjid : ∀ x : Lead, (junkIf now x).id = x.id := by
      intro x
      unfold junkIf junkify
      split <;> rfl
    refine ⟨junkRow a.id now l, ?_, ?_, ?_⟩
    · rw [hcomp.2.2.1, rowsFor_append, rowsFor_map_junkRow,
        filter_candidate_single db.leads (staleSecondFollowup now) leadId l hnd hfind hstale]
      rfl
    · rw [hcomp.2.2.1, rowsFor_append, rowsFor_map_junkRow,
        filter_candidate_single db.leads (staleSecondFollowup now) leadId l hnd hfind hstale]
      show (rowsFor leadId db.history ++ [junkRow a.id now l]).getLast? = _
      exact getLast_append_singleton _ _
    · rw [hcomp.2.2.2.1, sweep_leads_eq db now hnd,
        findLead_map db.leads (junkIf now) leadId hjid, hfind]
      simp [junkIf, hstale, junkify, junkRow]

/-- Concrete instantiation of the C2 amended theorem (claim component): the
claim of the sample lead appends one row matching its status. -/
theorem status_mutation_appends_one_row_witness :
    findLead wDb.leads 0 = some wLead ∧
    ∃ row, rowsFor 0 (claimRun 1 Role.outreach 0 9 wDb).1.history =
        rowsFor 0 wDb.history ++ [row] ∧
      (rowsFor 0 (claimRun 1 Role.outreach 0 9 wDb).1.history).getLast? = some row ∧
      (findLead (claimRun 1 Role.outreach 0 9 wDb).1.leads 0).map (fun x => x.status)
          = some row.newStatus :=
  ⟨rfl, status_mutation_appends_one_row.2.1 wDb 1 Role.outreach 0 9 wLead
    (Or.inl rfl) rfl (Or.inl rfl)⟩

/-- C4 counterexample: with the lead-update write failing after the history
write succeeded, the PUT route leaves the history row appended (newStatus
`texted`) while the lead's stored status is still `new` — the two writes are
not one logical unit. -/
theorem partial_mutation_on_store_failure :
    (leadUpdateF true wDb wSession 0 wData 42).1 = .storeFailure ∧
    rowsFor 0 (leadUpdateF true wDb wSession 0 wData 42).2.history =
      [{ leadId := 0, userId := 7, oldStatus := .new, newStatus := .texted,
         reason := none, createdAt := 42 }] ∧
    (findLead (leadUpdateF true wDb wSession 0 wData 42).2.leads 0).map
      (fun x => x.status) = some Status.new :=
  ⟨rfl, rfl, rfl⟩

/-- C4 (amended): authorization and existence checks happen before any
write — every checked failure of the update, claim and unclaim routes
leaves the store unchanged — but the history row and the lead update are
two separate store writes, so a store failure at the final lead-update call
leaves the history row appended with the lead table untouched. -/
theorem checks_precede_writes :
    (∀ (flag : Bool) (db : DB) (s : Session) (leadId : Nat) (data : UpdateLeadData)
        (now : Int) (r : UpdateResult) (db' : DB),
      leadUpdateF flag db s leadId data now = (r, db') →
      (r = .notFound ∨ r = .forbidden) → db' = db) ∧
    (∀ (db : DB) (uid : Nat) (role : Role) (leadId : Nat) (now : Int)
        (o : ClaimOutcome) (db' : DB),
      claimRun uid role leadId now db = (db', .done o) →
      o ≠ .ok → db' = db) ∧
    (∀ (db : DB) (s : Session) (leadId : Nat) (now : Int) (r : UnclaimResult)
        (db' : DB),
      unclaim db s leadId now = (r, db') → r ≠ .ok → db' = db) ∧
    (∀ (db : DB) (s : Session) (leadId : Nat) (data : UpdateLeadData) (now : Int)
        (l : Lead) (st : Status) (db' : DB),
      findLead db.leads leadId = some l → data.status = some st → st ≠ l.status →
      leadUpdateF true db s leadId data now = (.storeFailure, db') →
      db'.leads = db.leads ∧
        db'.history = db.history ++
          [changeRow leadId s.id l (stripAssign s.role data) now]) := by
  refine ⟨?_, ?_, ?_, ?_⟩
  · intro flag db s leadId data now r db' h hr
    unfold leadUpdateF at h
    split at h
    · simp only [Prod.mk.injEq] at h
      exact h.2.symm
    · split at h
      · simp only [Prod.mk.injEq] at h
        exact h.2.symm
      · split at h
        · simp only [Prod.mk.injEq] at h
          exact h.2.symm
        · split at h
          · simp only [Prod.mk.injEq] at h
            rw [← h.1] at hr
            simp at hr
          · simp only [Prod.mk.injEq] at h
            rw [← h.1] at hr
            simp at hr
  · intro db uid role leadId now o db' h ho
    by_cases h1 : (¬role = Role.outreach ∧ ¬role = Role.admin)
    · have run : claimRun uid role leadId now db = (db, .done .forbidden) := by
        simp [claimRun, claimStep, h1]
      rw [run] at h
      simp only [Prod.mk.injEq] at h
      exact h.1.symm
    · cases hf : findLead db.leads leadId with
      | none =>
        have run : claimRun uid role leadId now db = (db, .done .notFound) := by
          simp [claimRun, claimStep, h1, hf]
        rw [run] at h
        simp only [Prod.mk.injEq] at h
        exact h.1.symm
      | some l =>
        by_cases h2 : (¬l.assignedToId = none ∧ ¬l.assignedToId = some uid)
        · have run : claimRun uid role leadId now db = (db, .done .alreadyAssigned) := by
            simp [claimRun, claimStep, h1, hf, h2]
          rw [run] at h
          simp only [Prod.mk.injEq] at h
          exact h.1.symm
        · have run := claimRun_success_eq db uid role leadId now l h1 hf h2
          rw [run] at h
          simp only [Prod.mk.injEq] at h
          obtain ⟨-, h2'⟩ := h
          injection h2' with h3
          exact absurd h3.symm ho
  · intro db s leadId now r db' h hr
    unfold unclaim at h
    split at h
    · simp only [Prod.mk.injEq] at h
      exact h.2.symm
    · split at h
      · simp only [Prod.mk.injEq] at h
        exact h.2.symm
      · split at h
        · simp only [Prod.mk.injEq] at h
          exact h.2.symm
        · split at h
          · simp only [Prod.mk.injEq] at h
            exact h.2.symm
          · simp only [Prod.mk.injEq] at h
            rw [← h.1] at hr
            simp at hr
  · intro db s leadId data now l st db' hfind hst hchange h
    unfold leadUpdateF at h
    split at h
    case _ heq => rw [hfind] at heq; cases heq
    case _ existingLead heq =>
      rw [hfind] at heq
      injection heq with heq
      subst heq
      split at h
      · simp at h
      · split at h
        · simp at h
        · have hsc : statusChangeOf (stripAssign s.role data) l.status = true := by
            unfold statusChangeOf
            rw [stripAssign_status, hst]
            simpa using hchange
          simp only [hsc, Bool.false_eq_true, if_false, if_true,
            Prod.mk.injEq] at h
          obtain ⟨-, hdb'⟩ := h
          subst hdb'
          exact ⟨rfl, rfl⟩

/-- Concrete instantiation of the C4 amended theorem: an update of a
missing lead returns not-found and leaves the store unchanged. -/
theorem checks_precede_writes_witness :
    leadUpdateF false emptyDb wSession 3 wData 42 = (.notFound, emptyDb) ∧
    ((UpdateResult.notFound = UpdateResult.notFound ∨
        UpdateResult.notFound = UpdateResult.forbidden) → emptyDb = emptyDb) := by
  refine ⟨rfl, ?_⟩
  intro h
  exact checks_precede_writes.1 false emptyDb wSession 3 wData 42 .notFound emptyDb rfl h

end Crm
